import Mathlib

/-!
Verification of the Pinterest image generator's rendering engine
(`app.py`).  The Python source is shallowly embedded: text is a list of
characters, Python floats are modelled as exact rationals (`ℚ`), Pillow
images are tracked at the (mode, width, height) level where a claim only
concerns mode and size, and fallible Python calls return an explicit
result type.  Each definition mirrors one function or code block of
`app.py`; the theorems at the end settle the specification claims.
-/

set_option autoImplicit false

namespace PinGen

/-! ### Python `str.split` (whitespace tokenisation), `' '.join`, and
`wrap_text` (app.py lines 370-386) -/

/-- Whitespace test matching Python's `str.split()` default separator set. -/
def isPySpace (c : Char) : Bool :=
  c = ' ' || c = '\t' || c = '\n' || c = '\r' || c = '\x0b' || c = '\x0c'

/-- Worker for `pySplit`: scans the text, accumulating the current word in
reverse; emits a word at each whitespace run boundary. -/
def pySplitGo : List Char → List Char → List (List Char)
  | [], cur => if cur = [] then [] else [cur.reverse]
  | c :: cs, cur =>
      if isPySpace c then
        if cur = [] then pySplitGo cs [] else cur.reverse :: pySplitGo cs []
      else
        pySplitGo cs (c :: cur)

/-- Python `text.split()`: split on runs of whitespace, dropping empty
tokens. -/
def pySplit (s : List Char) : List (List Char) :=
  pySplitGo s []

/-- Python `' '.join(words)`. -/
def joinSpace : List (List Char) → List Char
  | [] => []
  | [w] => w
  | w :: v :: ws => w ++ ' ' :: joinSpace (v :: ws)

/-- A token produced by `str.split()`: non-empty and free of whitespace. -/
def goodWord (w : List Char) : Prop :=
  w ≠ [] ∧ ∀ c ∈ w, isPySpace c = false

instance (w : List Char) : Decidable (goodWord w) := by
  unfold goodWord; infer_instance

/-- Loop body of `wrap_text` (app.py lines 375-385): greedy accumulation of
words into `current`, closing a line when the measured width of the
candidate line would exceed `maxW`.  `width` models
`draw.textlength(·, font)` for the fixed font object. -/
def wrapLoop (width : List Char → ℚ) (maxW : ℚ) :
    List (List Char) → List (List Char) → List (List Char) → List (List Char)
  | [], cur, lines =>
      if cur = [] then lines else lines ++ [joinSpace cur]
  | w :: ws, cur, lines =>
      if width (joinSpace (cur ++ [w])) ≤ maxW then
        wrapLoop width maxW ws (cur ++ [w]) lines
      else
        wrapLoop width maxW ws [w]
          (if cur = [] then lines else lines ++ [joinSpace cur])

/-- Embedding of `wrap_text(text, font_obj, max_w)` (app.py lines 370-386). -/
def wrap_text (text : List Char) (width : List Char → ℚ) (maxW : ℚ) :
    List (List Char) :=
  wrapLoop width maxW (pySplit text) [] []

/-! ### The font auto-fit loop (app.py lines 367, 613-617)

`linesAt s` abstracts `len(wrap_text(title, load_bundled_font(prefs, s),
max_width))`, the number of wrapped lines obtained at font size `s`; the
loop `while len(wrapped_lines) > 6 and base_font_size > 30:
base_font_size -= 5; ...` is embedded as a recursion on the size. -/

/-- Final value of `base_font_size` after the reduction loop, starting
from `size`. -/
def autoFitSize (linesAt : ℕ → ℕ) (size : ℕ) : ℕ :=
  if h : 6 < linesAt size ∧ 30 < size then
    autoFitSize linesAt (size - 5)
  else
    size
termination_by size
decreasing_by omega

/-- Number of size-reduction iterations the loop performs starting from
`size`. -/
def autoFitSteps (linesAt : ℕ → ℕ) (size : ℕ) : ℕ :=
  if h : 6 < linesAt size ∧ 30 < size then
    autoFitSteps linesAt (size - 5) + 1
  else
    0
termination_by size
decreasing_by omega

/-! ### `total_text_height` (app.py lines 620-622) -/

/-- Embedding of
`total_text_height = sum(lh * 1.3 for lh in line_heights) -
(line_heights[0] * (1.3 - 1.2))`. -/
def total_text_height (line_heights : List ℚ) : ℚ :=
  (line_heights.map (fun lh => lh * (13 / 10))).sum -
    line_heights.headI * ((13 / 10 : ℚ) - 12 / 10)

/-! ### Style 1 text background box (app.py lines 677-716) -/

/-- Python `int(·)`: truncation toward zero. -/
def pyInt (q : ℚ) : ℤ :=
  if 0 ≤ q then ⌊q⌋ else ⌈q⌉

/-- The text-block bounding-box accumulation loop (app.py lines 688-697):
state is `(minX, minY, maxX, maxY)`, updated per line from the line's
measured `(width, height)`, the running index and the running y cursor. -/
def textBlockLoop : List (ℚ × ℚ) → ℕ → ℚ → ℚ × ℚ × ℚ × ℚ → ℚ × ℚ × ℚ × ℚ
  | [], _, _, b => b
  | (w, h) :: rest, i, curY, (minX, minY, maxX, maxY) =>
      let lineX : ℚ := ⌊(1000 - w) / 2⌋
      let alh : ℚ := h * (if 0 < i then 13 / 10 else 12 / 10)
      textBlockLoop rest (i + 1) (curY + alh)
        (min minX lineX, min minY curY, max maxX (lineX + w),
          max maxY (curY + alh))

/-- The clamped style-1 background box. -/
structure Style1Box where
  left : ℤ
  top : ℤ
  right : ℤ
  bottom : ℤ
deriving DecidableEq

/-- Embedding of the style-1 box computation (app.py lines 684-716):
bounding box over all lines starting from `[1000, 1500, 0, 0]`, expansion
by the paddings (50 at the sides, 35 above, `35 * 0.8` below), `int`
truncation, then clamping to the canvas. -/
def style1Box (text_y : ℚ) (lines : List (ℚ × ℚ)) : Style1Box :=
  let b := textBlockLoop lines 0 text_y (1000, 1500, 0, 0)
  let bl := pyInt (b.1 - 50)
  let bt := pyInt (b.2.1 - 35)
  let br := pyInt (b.2.2.1 + 50)
  let bb := pyInt (b.2.2.2 + 35 * (8 / 10))
  { left := max 0 bl, top := max 0 bt, right := min 1000 br,
    bottom := min 1500 bb }

/-! ### Font loading (`load_bundled_font`, app.py lines 222-278)

Pillow calls are modelled by an environment of oracles; a call either
returns a font handle (modelled as `ℕ`) or raises an exception of a given
kind.  `load_bundled_font` itself returns `ok (some f)` on success,
`ok none` for the literal `return None` at line 278, and `exn e` when an
exception escapes the function. -/

/-- Kinds of Python exception relevant to the `except` clauses of
`load_bundled_font`. -/
inductive ExnKind
  | ioError
  | typeError
  | otherError
deriving DecidableEq

/-- Outcome of a Python call: a value, or a raised exception. -/
inductive PyResult (α : Type)
  | ok (a : α)
  | exn (e : ExnKind)
deriving DecidableEq

/-- Environment of Pillow/OS primitives used by `load_bundled_font`. -/
structure FontEnv where
  pathExists : String → Bool
  truetype : String → ℕ → PyResult ℕ
  loadDefaultSized : ℕ → PyResult ℕ
  loadDefaultNoSize : PyResult ℕ

/-- The bundled-font loop (app.py lines 233-244): every exception
(`except IOError`, `except Exception`) moves on to the next candidate, as
does a missing file. -/
def tryBundled (env : FontEnv) : List String → ℕ → Option ℕ
  | [], _ => none
  | n :: ns, size =>
      if env.pathExists ("font/" ++ n) then
        match env.truetype ("font/" ++ n) size with
        | .ok f => some f
        | .exn _ => tryBundled env ns size
      else
        tryBundled env ns size

/-- The system-font fallback loop (app.py lines 251-261): again every
exception moves on to the next candidate. -/
def trySystem (env : FontEnv) : List String → ℕ → Option ℕ
  | [], _ => none
  | n :: ns, size =>
      match env.truetype n size with
      | .ok f => some f
      | .exn _ => trySystem env ns size

/-- The fixed system fallback list (app.py line 250). -/
def common_fallbacks : List String :=
  ["arial.ttf", "Arial.ttf", "DejaVuSans.ttf", "Verdana.ttf"]

/-- Embedding of `load_bundled_font(font_names, size)` (app.py lines
222-278).  The final default-font block translates the nested
`try/except` literally: a `TypeError` from the sized call retries without
a size (an exception there propagates, since it is raised inside the
`except TypeError` handler), and any other exception from the sized call
hits `except Exception: return None`. -/
def load_bundled_font (env : FontEnv) (font_names : List String) (size : ℕ) :
    PyResult (Option ℕ) :=
  match tryBundled env font_names size with
  | some f => .ok (some f)
  | none =>
      match trySystem env common_fallbacks size with
      | some f => .ok (some f)
      | none =>
          match env.loadDefaultSized size with
          | .ok f => .ok (some f)
          | .exn .typeError =>
              match env.loadDefaultNoSize with
              | .ok f => .ok (some f)
              | .exn e => .exn e
          | .exn _ => .ok none

/-- Environment on which every font source fails: no bundled file exists,
every `truetype` call raises `IOError`, and the sized default load raises
a non-`TypeError` exception. -/
def cexFontEnv : FontEnv where
  pathExists := fun _ => false
  truetype := fun _ _ => .exn .ioError
  loadDefaultSized := fun _ => .exn .otherError
  loadDefaultNoSize := .ok 0

/-- Environment on which only the sized default-font load succeeds. -/
def defaultOnlyFontEnv : FontEnv where
  pathExists := fun _ => false
  truetype := fun _ _ => .exn .ioError
  loadDefaultSized := fun _ => .ok 7
  loadDefaultNoSize := .exn .otherError

/-! ### Image pipeline at the (mode, size) level (app.py lines 316-1518)

Pillow images are tracked by their mode and pixel dimensions, which is
exactly the level at which the output-format claims live.  Each operation
records Pillow's mode/size behaviour: `convert` changes only the mode,
`Image.alpha_composite` returns a fresh `RGBA` image of the first
argument's size, in-place `paste` leaves mode and size unchanged, and
`crop` changes only the size. -/

/-- Pillow image modes occurring in the pipeline. -/
inductive PILMode
  | RGB
  | RGBA
  | L
deriving DecidableEq

/-- A Pillow image, abstracted to its mode and size. -/
structure PILImage where
  mode : PILMode
  width : ℕ
  height : ℕ
deriving DecidableEq

/-- `img.convert(m)`. -/
def convert (m : PILMode) (i : PILImage) : PILImage :=
  { i with mode := m }

/-- `img.resize((w, h))`. -/
def resizeTo (w h : ℕ) (i : PILImage) : PILImage :=
  { i with width := w, height := h }

/-- `Image.new(m, (w, h))`. -/
def imageNew (m : PILMode) (w h : ℕ) : PILImage :=
  ⟨m, w, h⟩

/-- `Image.alpha_composite(a, b)`: a fresh `RGBA` image of `a`'s size. -/
def alpha_composite (a _b : PILImage) : PILImage :=
  { mode := PILMode.RGBA, width := a.width, height := a.height }

/-- In-place `base.paste(overlay, pos, mask)`: mode and size of `base` are
unchanged. -/
def pasteInto (base _overlay : PILImage) : PILImage :=
  base

/-- `img.crop((0, 0, w, h))`. -/
def cropTo (w h : ℕ) (i : PILImage) : PILImage :=
  { i with width := w, height := h }

/-- `img.filter(ImageFilter.GaussianBlur(...))`: mode and size preserved. -/
def gaussianBlur (i : PILImage) : PILImage :=
  i

/-- `add_rounded_corners` (app.py lines 404-411): converts to `RGBA`,
builds an `L` mask, and pastes onto a fresh transparent `RGBA` canvas of
the same size. -/
def add_rounded_corners (i : PILImage) : PILImage :=
  pasteInto (imageNew PILMode.RGBA i.width i.height) (convert PILMode.RGBA i)

/-- The five styles selectable by the `Style` request field. -/
inductive Style
  | style1
  | style2
  | style3
  | style4
  | style5
deriving DecidableEq

/-- Resize step (app.py lines 324-326): resize to 1000 by 1500 if the
size differs. -/
def resizeStage (i : PILImage) : PILImage :=
  if i.width ≠ 1000 ∨ i.height ≠ 1500 then resizeTo 1000 1500 i else i

/-- Decode stage (app.py lines 317-326): convert to `RGB` if needed, then
resize to 1000 by 1500 if needed.  The three enhancement passes (lines
329-334) preserve mode and size. -/
def decodeStage (img0 : PILImage) : PILImage :=
  resizeStage (if img0.mode ≠ PILMode.RGB then convert PILMode.RGB img0 else img0)

/-- Background-effect stage (app.py lines 389-401): contrast tweak, tint
composite and gradient composite in `RGBA`, then back to `RGB`. -/
def bgEffectStage (i : PILImage) : PILImage :=
  convert PILMode.RGB
    (alpha_composite
      (alpha_composite (convert PILMode.RGBA i)
        (imageNew PILMode.RGBA 1000 1500))
      (imageNew PILMode.RGBA 1000 1500))

/-- Style background stage (app.py lines 414-590): the per-style
background treatment.  Styles 3, 4 and 5 rebuild the canvas as a fresh
`RGBA` image of the target size; style 2 composites a radial overlay;
style 1 leaves the image as produced by `bgEffectStage`. -/
def styleBackground (st : Style) (i : PILImage) : PILImage :=
  match st with
  | .style1 => i
  | .style2 =>
      convert PILMode.RGBA
        (convert PILMode.RGB
          (alpha_composite (convert PILMode.RGBA i)
            (imageNew PILMode.RGBA 1000 1500)))
  | .style3 =>
      pasteInto
        (pasteInto (pasteInto (imageNew PILMode.RGBA 1000 1500)
          (convert PILMode.RGBA i)) (imageNew PILMode.RGBA 1000 170))
        (imageNew PILMode.RGBA 1000 180)
  | .style4 =>
      pasteInto
        (pasteInto (imageNew PILMode.RGBA 1000 1500) (convert PILMode.RGBA i))
        (imageNew PILMode.RGBA 1000 450)
  | .style5 =>
      alpha_composite
        (pasteInto (imageNew PILMode.RGBA 1000 1500) (convert PILMode.RGBA i))
        (imageNew PILMode.RGBA 1000 1500)

/-- Style-1 text background box stage (app.py lines 677-731): when the
clamped box has positive area, the box surface is alpha-composited onto
the canvas (leaving it `RGBA`); otherwise nothing is drawn. -/
def boxStage (st : Style) (boxPos : Bool) (i : PILImage) : PILImage :=
  match st with
  | .style1 =>
      if boxPos then
        alpha_composite (convert PILMode.RGBA i)
          (imageNew PILMode.RGBA i.width i.height)
      else i
  | _ => i

/-- Bottom-bar stage (app.py lines 896-923): styles 1 and 2 paste a
60-pixel bottom bar in place when branding text is present. -/
def barStage (st : Style) (branding : Bool) (i : PILImage) : PILImage :=
  match st, branding with
  | .style1, true => pasteInto i (imageNew PILMode.RGBA 1000 60)
  | .style2, true => pasteInto i (imageNew PILMode.RGBA 1000 60)
  | _, _ => i

/-- Read-More button stage (app.py lines 1153-1250), for styles 1-3.
`Image.alpha_composite` requires an `RGBA` first argument; when the
canvas is not `RGBA` (style 1 without the box composite) Pillow raises
and the surrounding `try` keeps the image unchanged. -/
def buttonStage (st : Style) (i : PILImage) : PILImage :=
  if st = Style.style1 ∨ st = Style.style2 ∨ st = Style.style3 then
    if i.mode = PILMode.RGBA then
      alpha_composite i (imageNew PILMode.RGBA 1000 1500)
    else i
  else i

/-- Middle stages (app.py lines 592-1250): the box composite, title
drawing, bottom-bar pastes, branding drawing and the button composite.
Text drawing never changes mode or size. -/
def midStages (st : Style) (branding boxPos : Bool) (i : PILImage) : PILImage :=
  buttonStage st (barStage st branding (boxStage st boxPos i))

/-- Final-touches stage (app.py lines 1252-1506).  Styles 1, 3, 4 and 5
convert to `RGBA`, round the corners and convert back to `RGB`; style 2
builds the blurred drop shadow on a 1020 by 1520 canvas, crops back to
1000 by 1500 and applies `add_rounded_corners` — with no conversion back
to `RGB` afterwards. -/
def finalTouches (st : Style) (i : PILImage) : PILImage :=
  match st with
  | .style2 =>
      let imgA := convert PILMode.RGBA i
      let shadow :=
        gaussianBlur (alpha_composite imgA (imageNew PILMode.RGBA 1000 1500))
      let composite :=
        pasteInto (pasteInto (imageNew PILMode.RGBA (1000 + 20) (1500 + 20))
          shadow) imgA
      add_rounded_corners (cropTo 1000 1500 composite)
  | _ => convert PILMode.RGB (add_rounded_corners (convert PILMode.RGBA i))

/-- The full rendering pipeline from decoded base image to the image
handed to `img.save(..., format='PNG')` (app.py lines 316-1518). -/
def renderPipeline (st : Style) (branding boxPos : Bool) (img0 : PILImage) :
    PILImage :=
  finalTouches st
    (midStages st branding boxPos (styleBackground st (bgEffectStage (decodeStage img0))))

/-! ### Output filename and determinism (app.py lines 1513-1518) -/

/-- Per-request ambient state: the wall clock and the random UUID.  These
are read only at app.py line 1514, to build the output filename. -/
structure RenderEnv where
  unixTime : ℕ
  uuidHex : List Char

/-- Embedding of
`image_filename = f"generated_{int(time.time())}_{uuid.uuid4().hex[:8]}.png"`. -/
def image_filename (env : RenderEnv) : List Char :=
  ("generated_").toList ++ (Nat.repr env.unixTime).toList ++
    '_' :: env.uuidHex.take 8 ++ (".png").toList

/-- One full request: the saved pixel raster and the chosen filename.
`title` and `brandingText` are the request's text fields; only the
emptiness of `brandingText` influences mode/size-level pixel structure,
and the ambient state `env` flows only into the filename. -/
def renderRequest (env : RenderEnv) (st : Style)
    (_title brandingText : List Char) (boxPos : Bool) (img0 : PILImage) :
    PILImage × List Char :=
  (renderPipeline st (!brandingText.isEmpty) boxPos img0, image_filename env)

/-! ### The style-5 parabolic curve mask (app.py lines 524-581)

Coordinates are exact rationals.  The code draws on an `L`-mode mask of
size 1000 by 1500: first `mask_draw.rectangle` fills from
`curve_start_y + peak_y` down to the bottom with value 255, then
`mask_draw.polygon` fills the region bounded below the sampled parabola.
The mask is parametrised by `steepness` (`steepness_factor`, 0.3 in the
code) and `ratio` (`peak_height_ratio`, 0.6 in the code);
`dark_section_height` is the fixed 1300 of app.py line 525. -/

/-- Canvas width (`target_size[0]`). -/
def canvasW : ℚ := 1000

/-- Canvas height (`target_size[1]`). -/
def canvasH : ℚ := 1500

/-- Height of the dark section (app.py line 525). -/
def dark_section_height : ℚ := 1300

/-- `curve_start_y = target_size[1] - dark_section_height` (app.py
line 550). -/
def curve_start_y : ℚ := canvasH - dark_section_height

/-- `peak_y = dark_section_height * peak_height_ratio` (app.py line 551). -/
def peak_y (rat : ℚ) : ℚ := dark_section_height * rat

/-- `center_x = target_size[0] / 2` (app.py line 552). -/
def center_x : ℚ := canvasW / 2

/-- `a = (steepness_factor * peak_y) / (center_x ** 2)` (app.py
line 555). -/
def aCoef (steepness rat : ℚ) : ℚ :=
  steepness * peak_y rat / center_x ^ 2

/-- The sampled parabola `y = -a * (x - center_x)**2 + peak_y +
curve_start_y` (app.py line 570). -/
def curveY (steepness rat x : ℚ) : ℚ :=
  -aCoef steepness rat * (x - center_x) ^ 2 + peak_y rat + curve_start_y

/-- Sample abscissa `x = i * target_size[0] / num_points` (app.py
line 568), with `num_points = 100`. -/
def curve_xs (i : ℕ) : ℚ := i * canvasW / 100

/-- The 101 sampled curve points (app.py lines 566-571). -/
def curve_points (steepness rat : ℚ) : List (ℚ × ℚ) :=
  (List.range 101).map (fun i => (curve_xs i, curveY steepness rat (curve_xs i)))

/-- The polygon vertex list (app.py lines 561-574): bottom-left corner,
the sampled curve, bottom-right corner. -/
def polygon_points (steepness rat : ℚ) : List (ℚ × ℚ) :=
  (0, canvasH) :: curve_points steepness rat ++ [(canvasW, canvasH)]

/-- A drawing command issued on the mask. -/
inductive DrawOp
  | rect (x0 y0 x1 y1 : ℚ) (fill : ℕ)
  | polygon (pts : List (ℚ × ℚ)) (fill : ℕ)
deriving DecidableEq

/-- The two mask-drawing commands the style-5 branch issues (app.py lines
558 and 577). -/
def style5MaskOps (steepness rat : ℚ) : List DrawOp :=
  [DrawOp.rect 0 (curve_start_y + peak_y rat) canvasW canvasH 255,
    DrawOp.polygon (polygon_points steepness rat) 255]

/-- Membership in the filled rectangle of app.py line 558. -/
def inMaskRect (rat x y : ℚ) : Prop :=
  0 ≤ x ∧ x ≤ canvasW ∧ curve_start_y + peak_y rat ≤ y ∧ y ≤ canvasH

instance (rat x y : ℚ) : Decidable (inMaskRect rat x y) := by
  unfold inMaskRect; infer_instance

/-- Height of the polygon's piecewise-linear upper boundary over the
segment from `curve_xs i` to `curve_xs (i + 1)`, at abscissa `x`. -/
def segY (steepness rat : ℚ) (i : ℕ) (x : ℚ) : ℚ :=
  curveY steepness rat (curve_xs i) +
    (x - curve_xs i) *
      (curveY steepness rat (curve_xs (i + 1)) - curveY steepness rat (curve_xs i)) /
      (curve_xs (i + 1) - curve_xs i)

/-- Membership in the filled polygon of app.py line 577: the region of the
canvas lying on or below the piecewise-linear curve through the sampled
points (the polygon closes through the two bottom corners). -/
def inMaskPolygon (steepness rat x y : ℚ) : Prop :=
  y ≤ canvasH ∧ ∃ i ∈ List.range 100,
    curve_xs i ≤ x ∧ x ≤ curve_xs (i + 1) ∧ segY steepness rat i x ≤ y

instance (steepness rat x y : ℚ) :
    Decidable (inMaskPolygon steepness rat x y) := by
  unfold inMaskPolygon; infer_instance

/-- Value of the style-5 mask at a point: 255 on the union of the two
filled regions, 0 elsewhere. -/
def maskValue (steepness rat x y : ℚ) : ℕ :=
  if inMaskRect rat x y ∨ inMaskPolygon steepness rat x y then 255 else 0

/-- Modelled from the claim's words, for comparison with the code: a mask
that fills the whole bottom `dark_section_height` region (from
`curve_start_y` down) plus the same polygon. -/
def claimMaskValue (steepness rat x y : ℚ) : ℕ :=
  if (0 ≤ x ∧ x ≤ canvasW ∧ curve_start_y ≤ y ∧ y ≤ canvasH) ∨
      inMaskPolygon steepness rat x y then 255 else 0

/-! ### Concrete data for witness evaluations -/

/-- Width oracle for concrete evaluations: the character count of the
line. -/
def demoWidth (s : List Char) : ℚ := s.length

/-- Concrete title text for concrete evaluations. -/
def demoText : List Char := ['a', 'b', ' ', 'c', 'd']

/-! ## Theorems -/

/-! ### Auto-fit loop bounds -/

/-- Helper: the size left by the reduction loop never drops below 30, for
any starting size that is at least 30 and a multiple of 5. -/
theorem autoFitSize_ge (linesAt : ℕ → ℕ) :
    ∀ size : ℕ, 30 ≤ size → size % 5 = 0 → 30 ≤ autoFitSize linesAt size := by
  intro size
  induction size using Nat.strong_induction_on with
  | _ size ih =>
    intro h30 h5
    rw [autoFitSize]
    split
    · next hc => exact ih (size - 5) (by omega) (by omega) (by omega)
    · next => exact h30

/-- Helper: the number of iterations is bounded by `(size - 30) / 5` for
any starting size that is a multiple of 5. -/
theorem autoFitSteps_le (linesAt : ℕ → ℕ) :
    ∀ size : ℕ, size % 5 = 0 → autoFitSteps linesAt size ≤ (size - 30) / 5 := by
  intro size
  induction size using Nat.strong_induction_on with
  | _ size ih =>
    intro h5
    rw [autoFitSteps]
    split
    · next hc =>
        have h := ih (size - 5) (by omega) (by omega)
        omega
    · next => omega

/-- C3: the font-size reduction loop started at 80 with step 5 terminates
(it is a total function), performs at most 10 size-reduction iterations,
and leaves `base_font_size` at 30 or above — for every possible
line-count behaviour `linesAt` of the title text and fonts. -/
theorem claim3_auto_fit_bounds (linesAt : ℕ → ℕ) :
    30 ≤ autoFitSize linesAt 80 ∧ autoFitSteps linesAt 80 ≤ 10 :=
  ⟨autoFitSize_ge linesAt 80 (by omega) (by omega),
    le_trans (autoFitSteps_le linesAt 80 (by omega)) (by omega)⟩

/-! ### Total text height -/

/-- C8: for a non-empty list of line heights, the code's
`total_text_height` equals the first height weighted 1.2 plus every
subsequent height weighted 1.3. -/
theorem claim8_total_text_height (h0 : ℚ) (rest : List ℚ) :
    total_text_height (h0 :: rest) =
      h0 * (12 / 10) + (rest.map (fun lh => lh * (13 / 10))).sum := by
  simp only [total_text_height, List.map_cons, List.sum_cons, List.headI]
  ring

/-! ### Style 1 background box clamping -/

/-- C9: the style-1 text background box, after padding and clamping, lies
entirely inside the 1000 by 1500 canvas, for every list of measured lines
and every text position. -/
theorem claim9_style1_box_in_canvas (text_y : ℚ) (lines : List (ℚ × ℚ)) :
    0 ≤ (style1Box text_y lines).left ∧ 0 ≤ (style1Box text_y lines).top ∧
      (style1Box text_y lines).right ≤ 1000 ∧
      (style1Box text_y lines).bottom ≤ 1500 := by
  refine ⟨le_max_left _ _, le_max_left _ _, min_le_left _ _, min_le_left _ _⟩

/-! ### Font loading -/

/-- Counterexample to C5: in an environment where every bundled file is
missing, every `truetype` call raises `IOError`, and the sized
default-font load raises a non-`TypeError` exception, `load_bundled_font`
returns `None` (app.py line 278) — not a usable font object. -/
theorem claim5_counterexample :
    load_bundled_font cexFontEnv ["a.ttf"] 80 = PyResult.ok none := by
  rfl

/-- C5 (amended): whenever the sized default-font load succeeds,
`load_bundled_font` never raises and always returns a font object, for
every candidate list, size and environment. -/
theorem claim5_amended (env : FontEnv) (names : List String) (size : ℕ)
    (f : ℕ) (h : env.loadDefaultSized size = PyResult.ok f) :
    ∃ g, load_bundled_font env names size = PyResult.ok (some g) := by
  unfold load_bundled_font
  cases hb : tryBundled env names size with
  | some g => exact ⟨g, rfl⟩
  | none =>
      cases hs : trySystem env common_fallbacks size with
      | some g => exact ⟨g, rfl⟩
      | none => rw [h]; exact ⟨f, rfl⟩

/-- Witness for C5: a concrete environment where only the sized default
load succeeds. -/
theorem claim5_witness :
    ∃ g, load_bundled_font defaultOnlyFontEnv ["a.ttf"] 80 =
      PyResult.ok (some g) :=
  claim5_amended defaultOnlyFontEnv ["a.ttf"] 80 7 rfl

/-! ### Output mode and size -/

/-- Helper: the decode stage always leaves a 1000 by 1500 image. -/
theorem decodeStage_size (img0 : PILImage) :
    (decodeStage img0).width = 1000 ∧ (decodeStage img0).height = 1500 := by
  unfold decodeStage resizeStage
  split_ifs with h1 h2 h3 <;>
    first
      | exact ⟨rfl, rfl⟩
      | · push_neg at *
          simp_all [convert, resizeTo]

/-- Counterexample to C1: for style 2 the image handed to PNG encoding is
still in RGBA mode — the style-2 final-touches path never converts back
to RGB before `img.save` (app.py lines 1254-1283). -/
theorem claim1_counterexample :
    (renderPipeline Style.style2 false false
        (PILImage.mk PILMode.RGB 1024 1024)).mode = PILMode.RGBA ∧
      (renderPipeline Style.style2 false false
        (PILImage.mk PILMode.RGB 1024 1024)).mode ≠ PILMode.RGB := by
  constructor <;> decide

/-- C1 (amended): for every style in style1..style5 and every request
reaching the save step, the final image is exactly 1000 by 1500; styles
1, 3, 4 and 5 convert the canvas to opaque RGB before saving, while style
2 hands an RGBA canvas to PNG encoding. -/
theorem claim1_amended (st : Style) (branding boxPos : Bool)
    (img0 : PILImage) :
    (renderPipeline st branding boxPos img0).width = 1000 ∧
      (renderPipeline st branding boxPos img0).height = 1500 ∧
      (renderPipeline st branding boxPos img0).mode =
        (if st = Style.style2 then PILMode.RGBA else PILMode.RGB) := by
  obtain ⟨hw, hh⟩ := decodeStage_size img0
  cases st <;> cases branding <;> cases boxPos <;>
    simp [renderPipeline, finalTouches, midStages, buttonStage, barStage,
      boxStage, styleBackground, bgEffectStage, convert, alpha_composite,
      pasteInto, imageNew, cropTo, add_rounded_corners, gaussianBlur, hw, hh]

/-! ### Tokenisation and wrapping lemmas -/

/-- Unfolding equation of `pySplitGo` on the empty text. -/
theorem pySplitGo_nil (cur : List Char) :
    pySplitGo [] cur = if cur = [] then [] else [cur.reverse] := rfl

/-- Unfolding equation of `pySplitGo` on a cons. -/
theorem pySplitGo_cons (c : Char) (cs cur : List Char) :
    pySplitGo (c :: cs) cur =
      if isPySpace c then
        (if cur = [] then pySplitGo cs [] else cur.reverse :: pySplitGo cs [])
      else pySplitGo cs (c :: cur) := rfl

/-- Helper: every token produced by the splitter is non-empty and free of
whitespace, provided the accumulator is free of whitespace. -/
theorem pySplitGo_good :
    ∀ (s cur : List Char), (∀ c ∈ cur, isPySpace c = false) →
      ∀ w ∈ pySplitGo s cur, goodWord w := by
  intro s
  induction s with
  | nil =>
      intro cur hcur w hw
      rw [pySplitGo_nil] at hw
      cases cur with
      | nil => simp at hw
      | cons a as =>
          rw [if_neg (by simp)] at hw
          rw [List.mem_singleton.mp hw]
          refine ⟨by simp, ?_⟩
          intro c hc
          exact hcur c (List.mem_reverse.mp hc)
  | cons c cs ih =>
      intro cur hcur w hw
      rw [pySplitGo_cons] at hw
      by_cases hc : isPySpace c
      · rw [if_pos hc] at hw
        cases cur with
        | nil =>
            rw [if_pos rfl] at hw
            exact ih [] (by simp) w hw
        | cons a as =>
            rw [if_neg (by simp)] at hw
            rcases List.mem_cons.mp hw with rfl | hw
            · refine ⟨by simp, ?_⟩
              intro d hd
              exact hcur d (List.mem_reverse.mp hd)
            · exact ih [] (by simp) w hw
      · rw [if_neg hc] at hw
        refine ih (c :: cur) ?_ w hw
        intro d hd
        rcases List.mem_cons.mp hd with rfl | hd
        · simpa using hc
        · exact hcur d hd

/-- Helper: splitting after prepending a whitespace-free word consumes the
word into the accumulator. -/
theorem pySplitGo_append_word :
    ∀ w : List Char, (∀ c ∈ w, isPySpace c = false) →
      ∀ s cur : List Char, pySplitGo (w ++ s) cur = pySplitGo s (w.reverse ++ cur) := by
  intro w
  induction w with
  | nil => intro _ s cur; simp
  | cons c cw ih =>
      intro hgood s cur
      have hc : isPySpace c = false := hgood c (by simp)
      rw [List.cons_append, pySplitGo_cons, hc]
      simp only [Bool.false_eq_true, if_false]
      rw [ih (fun d hd => hgood d (by simp [hd])) s (c :: cur)]
      congr 1
      simp

/-- Helper: splitting the space-join of good tokens recovers the tokens. -/
theorem pySplit_joinSpace :
    ∀ ws : List (List Char), (∀ w ∈ ws, goodWord w) →
      pySplit (joinSpace ws) = ws := by
  intro ws
  induction ws with
  | nil => intro _; rfl
  | cons w vs ih =>
      intro hgood
      obtain ⟨hw, hforall⟩ := hgood w (by simp)
      cases vs with
      | nil =>
          show pySplitGo (joinSpace [w]) [] = [w]
          have h1 := pySplitGo_append_word w hforall [] []
          simp only [List.append_nil] at h1
          rw [show joinSpace [w] = w from rfl, h1, pySplitGo_nil,
            if_neg (by simp [hw])]
          simp
      | cons v vs2 =>
          show pySplitGo (joinSpace (w :: v :: vs2)) [] = w :: v :: vs2
          rw [show joinSpace (w :: v :: vs2) = w ++ ' ' :: joinSpace (v :: vs2)
            from rfl]
          have h1 := pySplitGo_append_word w hforall
            (' ' :: joinSpace (v :: vs2)) []
          rw [h1]
          simp only [List.append_nil]
          rw [pySplitGo_cons, if_pos (show isPySpace ' ' = true from rfl),
            if_neg (by simp [hw]), List.reverse_reverse]
          exact congrArg (fun t => w :: t) (ih (fun u hu => hgood u (by simp [hu])))

/-- Helper: the wrapping-loop invariant behind C2 — every accumulated line
with at least two words measures within `maxW`, and the candidate line,
whenever it holds at least two words, measures within `maxW`. -/
theorem wrapLoop_width_inv (width : List Char → ℚ) (maxW : ℚ) :
    ∀ ws cur lines : List (List Char),
      (∀ w ∈ ws, goodWord w) → (∀ w ∈ cur, goodWord w) →
      (∀ l ∈ lines, 2 ≤ (pySplit l).length → width l ≤ maxW) →
      (2 ≤ cur.length → width (joinSpace cur) ≤ maxW) →
      ∀ l ∈ wrapLoop width maxW ws cur lines,
        2 ≤ (pySplit l).length → width l ≤ maxW := by
  intro ws
  induction ws with
  | nil =>
      intro cur lines _ hcur hlines hcurw l hl
      unfold wrapLoop at hl
      cases cur with
      | nil => exact hlines l (by simpa using hl)
      | cons a as =>
          rw [if_neg (by simp)] at hl
          rcases List.mem_append.mp hl with hl | hl
          · exact hlines l hl
          · intro h2
            rw [List.mem_singleton.mp hl] at h2 ⊢
            rw [pySplit_joinSpace _ hcur] at h2
            exact hcurw h2
  | cons w ws ih =>
      intro cur lines hws hcur hlines hcurw l hl
      unfold wrapLoop at hl
      have hgw : goodWord w := hws w (by simp)
      have hws' : ∀ u ∈ ws, goodWord u := fun u hu => hws u (by simp [hu])
      have hcur' : ∀ u ∈ cur ++ [w], goodWord u := by
        intro u hu
        rcases List.mem_append.mp hu with h | h
        · exact hcur u h
        · rw [List.mem_singleton.mp h]; exact hgw
      by_cases hfit : width (joinSpace (cur ++ [w])) ≤ maxW
      · rw [if_pos hfit] at hl
        exact ih (cur ++ [w]) lines hws' hcur' hlines (fun _ => hfit) l hl
      · rw [if_neg hfit] at hl
        refine ih [w] _ hws' (by simpa using hgw) ?_ (by simp) l hl
        cases cur with
        | nil => simpa using hlines
        | cons a as =>
            rw [if_neg (by simp)]
            intro l' hl'
            rcases List.mem_append.mp hl' with h | h
            · exact hlines l' h
            · intro h2
              rw [List.mem_singleton.mp h] at h2 ⊢
              rw [pySplit_joinSpace _ hcur] at h2
              exact hcurw h2

/-- C2: every line returned by `wrap_text` holding at least two words
measures within `maxW` under the same width oracle; only a single-word
line may overflow. -/
theorem claim2_wrap_width (text : List Char) (width : List Char → ℚ)
    (maxW : ℚ) (l : List Char) (hl : l ∈ wrap_text text width maxW)
    (h2 : 2 ≤ (pySplit l).length) : width l ≤ maxW :=
  wrapLoop_width_inv width maxW (pySplit text) [] []
    (fun w hw => pySplitGo_good text [] (by simp) w hw)
    (by simp) (by simp) (by simp) l hl h2

/-- Witness for C2: on the text "ab cd" with the character-count width
oracle and budget 5, the single returned line "ab cd" has two words and
measures 5 which is within the budget. -/
theorem claim2_wrap_width_witness : demoWidth demoText ≤ 5 :=
  claim2_wrap_width demoText demoWidth 5 demoText (by decide) (by decide)

/-- Helper: the wrapping loop emits, in order, exactly the words it was
given — the invariant behind C10. -/
theorem wrapLoop_join_inv (width : List Char → ℚ) (maxW : ℚ) :
    ∀ ws cur lines : List (List Char),
      (∀ w ∈ ws, goodWord w) → (∀ w ∈ cur, goodWord w) →
      ((wrapLoop width maxW ws cur lines).map pySplit).flatten =
        (lines.map pySplit).flatten ++ cur ++ ws := by
  intro ws
  induction ws with
  | nil =>
      intro cur lines _ hcur
      unfold wrapLoop
      cases cur with
      | nil => simp
      | cons a as =>
          rw [if_neg (by simp)]
          simp [pySplit_joinSpace _ hcur]
  | cons w ws ih =>
      intro cur lines hws hcur
      unfold wrapLoop
      have hgw : goodWord w := hws w (by simp)
      have hws' : ∀ u ∈ ws, goodWord u := fun u hu => hws u (by simp [hu])
      have hcur' : ∀ u ∈ cur ++ [w], goodWord u := by
        intro u hu
        rcases List.mem_append.mp hu with h | h
        · exact hcur u h
        · rw [List.mem_singleton.mp h]; exact hgw
      by_cases hfit : width (joinSpace (cur ++ [w])) ≤ maxW
      · rw [if_pos hfit, ih (cur ++ [w]) lines hws' hcur']
        simp
      · rw [if_neg hfit]
        cases cur with
        | nil =>
            rw [if_pos rfl, ih [w] lines hws' (by simpa using hgw)]
            simp
        | cons a as =>
            rw [if_neg (by simp),
              ih [w] (lines ++ [joinSpace (a :: as)]) hws' (by simpa using hgw)]
            simp [pySplit_joinSpace _ hcur]

/-- C10: `wrap_text` preserves the word sequence — concatenating the
returned lines and re-splitting on whitespace yields exactly the words of
the input text in order, and a text with no words yields no lines. -/
theorem claim10_wrap_preserves_words (text : List Char)
    (width : List Char → ℚ) (maxW : ℚ) :
    ((wrap_text text width maxW).map pySplit).flatten = pySplit text ∧
      (pySplit text = [] → wrap_text text width maxW = []) := by
  constructor
  · have h := wrapLoop_join_inv width maxW (pySplit text) [] []
      (fun w hw => pySplitGo_good text [] (by simp) w hw) (by simp)
    simpa using h
  · intro h
    unfold wrap_text
    rw [h]
    rfl

/-- Witness for C10 at concrete inputs. -/
theorem claim10_wrap_preserves_words_witness :
    ((wrap_text demoText demoWidth 5).map pySplit).flatten = pySplit demoText :=
  (claim10_wrap_preserves_words demoText demoWidth 5).1

/-! ### Determinism -/

/-- C4: the rendering pipeline is deterministic — for the same request
inputs, the pixel raster handed to `img.save` is identical across runs
with different wall-clock times and UUIDs; the ambient state flows only
into the output filename (app.py line 1514). -/
theorem claim4_determinism (e1 e2 : RenderEnv) (st : Style)
    (title brandingText : List Char) (boxPos : Bool) (img0 : PILImage) :
    (renderRequest e1 st title brandingText boxPos img0).1 =
      (renderRequest e2 st title brandingText boxPos img0).1 ∧
      (renderRequest e1 st title brandingText boxPos img0).2 =
        image_filename e1 :=
  ⟨rfl, rfl⟩

/-! ### Style-5 parabola mask -/

/-- Helper: the sample abscissa in closed form. -/
theorem curve_xs_cast (i : ℕ) : curve_xs i = 10 * (i : ℚ) := by
  unfold curve_xs canvasW
  ring

/-- Helper: the sampled parabola is symmetric about the canvas midline. -/
theorem curveY_sym (s r x : ℚ) : curveY s r (canvasW - x) = curveY s r x := by
  unfold curveY aCoef center_x canvasW
  ring

/-- Helper: mirrored sample abscissas, left form. -/
theorem curve_xs_mirror1 (i : ℕ) (hi : i ≤ 99) :
    curve_xs (99 - i) = canvasW - curve_xs (i + 1) := by
  rw [curve_xs_cast, curve_xs_cast]
  rw [show ((99 - i : ℕ) : ℚ) = 99 - (i : ℚ) by push_cast [hi]; ring]
  unfold canvasW
  push_cast
  ring

/-- Helper: mirrored sample abscissas, right form. -/
theorem curve_xs_mirror2 (i : ℕ) (hi : i ≤ 100) :
    curve_xs (100 - i) = canvasW - curve_xs i := by
  rw [curve_xs_cast, curve_xs_cast]
  rw [show ((100 - i : ℕ) : ℚ) = 100 - (i : ℚ) by push_cast [hi]; ring]
  unfold canvasW
  ring

/-- Helper: the piecewise-linear boundary is symmetric — segment `99 - i`
evaluated at the mirrored abscissa equals segment `i` at the original. -/
theorem segY_sym (s r x : ℚ) (i : ℕ) (hi : i < 100) :
    segY s r (99 - i) (canvasW - x) = segY s r i x := by
  have e1 : curve_xs (99 - i) = canvasW - curve_xs (i + 1) :=
    curve_xs_mirror1 i (by omega)
  have e2 : curve_xs (99 - i + 1) = canvasW - curve_xs i := by
    rw [show 99 - i + 1 = 100 - i by omega]
    exact curve_xs_mirror2 i (by omega)
  have hd : curve_xs (i + 1) = curve_xs i + 10 := by
    rw [curve_xs_cast, curve_xs_cast]
    push_cast
    ring
  unfold segY
  rw [e1, e2]
  simp only [curveY_sym]
  rw [hd]
  unfold canvasW
  ring

/-- Helper: the filled rectangle is symmetric about the canvas midline. -/
theorem inMaskRect_sym (r x y : ℚ) :
    inMaskRect r x y ↔ inMaskRect r (canvasW - x) y := by
  unfold inMaskRect canvasW
  constructor <;> rintro ⟨h1, h2, h3, h4⟩ <;>
    exact ⟨by linarith, by linarith, h3, h4⟩

/-- Helper: one direction of polygon-region symmetry. -/
theorem inMaskPolygon_mirror (s r x y : ℚ)
    (h : inMaskPolygon s r x y) : inMaskPolygon s r (canvasW - x) y := by
  obtain ⟨hy, i, hi, h1, h2, h3⟩ := h
  rw [List.mem_range] at hi
  refine ⟨hy, 99 - i, List.mem_range.mpr (by omega), ?_, ?_, ?_⟩
  · rw [curve_xs_mirror1 i (by omega)]
    linarith
  · rw [show 99 - i + 1 = 100 - i by omega, curve_xs_mirror2 i (by omega)]
    linarith
  · rw [segY_sym s r x i hi]
    exact h3

/-- Helper: the polygon region is symmetric about the canvas midline. -/
theorem inMaskPolygon_sym (s r x y : ℚ) :
    inMaskPolygon s r x y ↔ inMaskPolygon s r (canvasW - x) y := by
  constructor
  · exact inMaskPolygon_mirror s r x y
  · intro h
    have h2 := inMaskPolygon_mirror s r (canvasW - x) y h
    rw [show canvasW - (canvasW - x) = x by ring] at h2
    exact h2

/-- C7: for every steepness factor and peak-height ratio, the style-5
mask is symmetric about the vertical centerline — its value at `(x, y)`
equals its value at `(canvasW - x, y)`. -/
theorem claim7_mask_symmetric (s r x y : ℚ) :
    maskValue s r x y = maskValue s r (canvasW - x) y := by
  unfold maskValue
  exact if_congr (or_congr (inMaskRect_sym r x y) (inMaskPolygon_sym s r x y))
    rfl rfl

/-- Counterexample to C6: the code fills the bottom rectangle only from
`curve_start_y + peak_y` down (app.py line 558), not the whole bottom
`dark_section_height` region.  At the point `(0, 300)` — inside the
bottom-1300 region claimed filled — the code's mask is 0 while the
claim's construction gives 255 (with the code's parameters 0.3 and
0.6). -/
theorem claim6_counterexample :
    maskValue (3 / 10) (6 / 10) 0 300 = 0 ∧
      claimMaskValue (3 / 10) (6 / 10) 0 300 = 255 := by
  constructor
  · unfold maskValue
    rw [if_neg]
    rintro (⟨h1, h2, h3, h4⟩ | ⟨hy, i, hi, h1, h2, h3⟩)
    · norm_num [curve_start_y, peak_y, canvasW, canvasH,
        dark_section_height] at h3
    · rw [curve_xs_cast] at h1
      have hi0 : i = 0 := by
        by_contra hne
        have hge : (1 : ℚ) ≤ (i : ℚ) := by
          exact_mod_cast Nat.one_le_iff_ne_zero.mpr hne
        linarith
      subst hi0
      norm_num [segY, curveY, aCoef, peak_y, center_x, curve_start_y,
        curve_xs, canvasW, canvasH, dark_section_height] at h3
  · unfold claimMaskValue
    rw [if_pos]
    left
    refine ⟨le_refl 0, ?_, ?_, ?_⟩ <;>
      norm_num [curve_start_y, canvasW, canvasH, dark_section_height]

/-- Helper: the sampled curve points, indexed. -/
theorem curve_points_get (s r : ℚ) (i : ℕ) (hi : i ≤ 100) :
    (curve_points s r)[i]? = some (curve_xs i, curveY s r (curve_xs i)) := by
  unfold curve_points
  rw [List.getElem?_map, List.getElem?_range (by omega)]
  rfl

/-- C6 (amended): the style-5 mask is drawn with exactly two commands —
a rectangle filling the bottom of the canvas from `curve_start_y +
peak_y` down (not the whole bottom `dark_section_height` region), and a
polygon from the bottom-left corner through 101 sampled points of the
curve `y = -a(x - cx)^2 + peakY + curveStartY` (with `a = steepness *
peakY / cx^2`) to the bottom-right corner, each filled at alpha 255. -/
theorem claim6_amended (s r : ℚ) (i : ℕ) (hi : i ≤ 100) :
    style5MaskOps s r =
      [DrawOp.rect 0 (curve_start_y + peak_y r) canvasW canvasH 255,
        DrawOp.polygon (polygon_points s r) 255] ∧
      (polygon_points s r).length = 103 ∧
      (polygon_points s r)[0]? = some (0, canvasH) ∧
      (polygon_points s r)[102]? = some (canvasW, canvasH) ∧
      (polygon_points s r)[i + 1]? =
        some (10 * (i : ℚ),
          -(s * peak_y r / center_x ^ 2) * (10 * (i : ℚ) - center_x) ^ 2 +
            peak_y r + curve_start_y) := by
  refine ⟨rfl, ?_, rfl, ?_, ?_⟩
  · unfold polygon_points curve_points
    simp
  · unfold polygon_points
    rw [List.getElem?_append_right (by unfold curve_points; simp)]
    unfold curve_points
    simp
  · unfold polygon_points
    rw [List.getElem?_append_left (by unfold curve_points; simp; omega)]
    simp only [List.getElem?_cons_succ]
    rw [curve_points_get s r i hi]
    have hx : curve_xs i = 10 * (i : ℚ) := curve_xs_cast i
    have hy : curveY s r (curve_xs i) =
        -(s * peak_y r / center_x ^ 2) * (10 * (i : ℚ) - center_x) ^ 2 +
          peak_y r + curve_start_y := by
      unfold curveY aCoef
      rw [curve_xs_cast]
    rw [hy, hx]

/-- Witness for C6 (amended) at the code's parameters and sample index 0. -/
theorem claim6_amended_witness :
    (polygon_points (3 / 10) (6 / 10))[0 + 1]? =
      some (10 * ((0 : ℕ) : ℚ),
        -((3 / 10) * peak_y (6 / 10) / center_x ^ 2) *
            (10 * ((0 : ℕ) : ℚ) - center_x) ^ 2 +
          peak_y (6 / 10) + curve_start_y) :=
  (claim6_amended (3 / 10) (6 / 10) 0 (by omega)).2.2.2.2

end PinGen
